import Mathlib

/-!
Verification of the chatbot backend's streaming tool-execution orchestrator.

The definitions below are a shallow embedding of the Python code in
`backend/app/helpers/llm.py` and `backend/app/routes/conversations.py`:

* retry/backoff executor (`LLMHelper._retry_with_backoff`),
* streaming retry wrapper (`LLMHelper._stream_with_retry`),
* thinking-budget clamping (`stream_chat_completion`, `generate_completion`),
* the SSE event-stream state machine of
  `ConversationMessageResource._handle_streaming_llm_response.event_stream`,
* the chunk accumulator of `LLMHelper.stream_with_tool_execution`,
* tool-name transit mapping and the message preparation of
  `ConversationMessageResource.on_post`.

Python exceptions are modelled with `Except`, JSON values are a type
parameter `α` with an abstract parser `parse : String → Option α`
(standing for `json.loads`) and serializer `dumps : α → String`
(standing for `json.dumps`), and the `asyncio.sleep` calls performed by
the retry loops are recorded as a list of slept durations (rationals,
standing for Python floats).
-/

namespace Chatbot

/-- Retry configuration of `LLMHelper` (`MAX_RETRIES`, `INITIAL_RETRY_DELAY`,
`MAX_RETRY_DELAY`, `BACKOFF_MULTIPLIER`), with the defaults 3 / 1.0 / 60.0 / 2.0. -/
structure RetryConfig where
  maxRetries : Nat
  initialDelay : Rat
  maxDelay : Rat
  multiplier : Rat
deriving DecidableEq

/-- Default retry configuration from the environment fallbacks in `llm.py`. -/
def defaultRetryConfig : RetryConfig :=
  { maxRetries := 3, initialDelay := 1, maxDelay := 60, multiplier := 2 }

/-- An error raised by an upstream operation.  `api t` models an
`APIStatusError` whose body yields `error.type = t` (`t = none` when the body
is not a dict or carries no such field); `other` models any other exception. -/
inductive UpstreamError where
  | api (errType : Option String)
  | other (msg : String)
deriving DecidableEq

/-- Classification used by both retry loops: an `APIStatusError` is retryable
exactly when its body's `error.type` is `overloaded_error` or
`rate_limit_error`. -/
def isRetryable : UpstreamError → Bool
  | .api (some t) => t == "overloaded_error" || t == "rate_limit_error"
  | .api none => false
  | .other _ => false

/-- Outcome of running a retry loop: the returned value or propagated error,
the number of times the wrapped operation was invoked, and the durations of
the backoff sleeps in the order they were performed. -/
structure RetryOutcome (σ : Type) where
  result : Except UpstreamError σ
  invocations : Nat
  sleeps : List Rat

/-- Loop body of `LLMHelper._retry_with_backoff`: `script n` is the outcome of
the `n`-th invocation of the wrapped operation, `fuel` is the number of loop
iterations remaining (`range(max_retries + 1)`), `attempt` the current index
and `delay` the current backoff delay.  On a retryable error with attempts
remaining the loop sleeps for `delay`, then sets
`delay := min (delay * multiplier) maxDelay` and retries; otherwise the error
is re-raised. -/
def retryAux (cfg : RetryConfig) (script : Nat → Except UpstreamError σ) :
    Nat → Nat → Rat → RetryOutcome σ
  | 0, _, _ =>
      { result := .error (.other "Unexpected end of retry loop"),
        invocations := 0, sleeps := [] }
  | fuel + 1, attempt, delay =>
      match script attempt with
      | .ok v => { result := .ok v, invocations := 1, sleeps := [] }
      | .error e =>
          if isRetryable e && decide (attempt < cfg.maxRetries) then
            let rest := retryAux cfg script fuel (attempt + 1)
              (min (delay * cfg.multiplier) cfg.maxDelay)
            { result := rest.result, invocations := rest.invocations + 1,
              sleeps := delay :: rest.sleeps }
          else
            { result := .error e, invocations := 1, sleeps := [] }

/-- `LLMHelper._retry_with_backoff`: run the operation through at most
`maxRetries + 1` attempts with exponential backoff. -/
def retryWithBackoff (cfg : RetryConfig) (script : Nat → Except UpstreamError σ) :
    RetryOutcome σ :=
  retryAux cfg script (cfg.maxRetries + 1) 0 cfg.initialDelay

/-- The backoff delay schedule starting from delay `d`:
`delayFrom d 0 = d` and `delayFrom d (i+1) = min (delayFrom d i * multiplier) maxDelay`. -/
def delayFrom (cfg : RetryConfig) (d : Rat) : Nat → Rat
  | 0 => d
  | i + 1 => min (delayFrom cfg d i * cfg.multiplier) cfg.maxDelay

/-- The delay schedule of the claim: first sleep is `initialDelay`, each
subsequent sleep is the previous one times `multiplier`, capped at `maxDelay`. -/
def delaySched (cfg : RetryConfig) : Nat → Rat :=
  delayFrom cfg cfg.initialDelay

/-- Provider stream events as dispatched by the chunk handlers.  `blockStart`
carries the `content_block` kind, `blockDelta` the delta payload, `untyped`
models a chunk object with no `type` attribute (the final `else` branch of the
route handler, which still probes for `delta.text`). -/
inductive BlockInfo where
  | text
  | toolUse (id name : String)
  | otherBlock
deriving DecidableEq

/-- Payload of a `content_block_delta` chunk, matching the attribute probes
`delta.text`, `delta.thinking`, `delta.partial_json`. -/
inductive DeltaInfo where
  | text (s : String)
  | thinking (s : String)
  | jsonFrag (s : String)
  | otherDelta
deriving DecidableEq

/-- One chunk of the decoded provider stream. -/
inductive Chunk where
  | contentBlockStart (block : BlockInfo)
  | contentBlockDelta (delta : DeltaInfo)
  | contentBlockStop
  | messageDelta (stopReason : Option String)
  | untyped (deltaText : Option String)
deriving DecidableEq

/-- One attempt of `client.messages.stream(**params)`: the chunks the stream
yields before it either completes (`outcome = none`) or raises
(`outcome = some e`). -/
structure StreamAttempt where
  chunks : List Chunk
  outcome : Option UpstreamError

/-- Outcome of the streaming retry wrapper: every chunk yielded to the
consumer (across all attempts, in order), the final result, the number of
stream-open attempts, and the backoff sleeps. -/
structure StreamRetryOutcome where
  yielded : List Chunk
  result : Except UpstreamError Unit
  attempts : Nat
  sleeps : List Rat

/-- Loop body of `LLMHelper._stream_with_retry`.  Each attempt re-opens the
upstream stream and relays its chunks to the consumer as they arrive; the
`except APIStatusError` clause around the whole `async for` catches failures
whether or not chunks were already yielded, and on a retryable error with
attempts remaining it sleeps and retries (the chunks relayed by the failed
attempt have already been yielded and stay in `yielded`). -/
def streamRetryAux (cfg : RetryConfig) (script : Nat → StreamAttempt) :
    Nat → Nat → Rat → StreamRetryOutcome
  | 0, _, _ =>
      { yielded := [], result := .error (.other "Unexpected end of streaming retry loop"),
        attempts := 0, sleeps := [] }
  | fuel + 1, attempt, delay =>
      let a := script attempt
      match a.outcome with
      | none => { yielded := a.chunks, result := .ok (), attempts := 1, sleeps := [] }
      | some e =>
          if isRetryable e && decide (attempt < cfg.maxRetries) then
            let rest := streamRetryAux cfg script fuel (attempt + 1)
              (min (delay * cfg.multiplier) cfg.maxDelay)
            { yielded := a.chunks ++ rest.yielded, result := rest.result,
              attempts := rest.attempts + 1, sleeps := delay :: rest.sleeps }
          else
            { yielded := a.chunks, result := .error e, attempts := 1, sleeps := [] }

/-- `LLMHelper._stream_with_retry`: stream with retry over at most
`maxRetries + 1` attempts. -/
def streamWithRetry (cfg : RetryConfig) (script : Nat → StreamAttempt) :
    StreamRetryOutcome :=
  streamRetryAux cfg script (cfg.maxRetries + 1) 0 cfg.initialDelay

/-- Python `max_tokens or 4096`: `None` and `0` both fall back to 4096. -/
def effectiveMax (maxTokens : Option Int) : Int :=
  match maxTokens with
  | none => 4096
  | some m => if m = 0 then 4096 else m

/-- Thinking budget actually sent by `stream_chat_completion`: when the
requested budget is at least `effective_max`, clamp to
`max(1024, effective_max - 1024)`; otherwise send it unchanged. -/
def streamThinkingBudget (requested : Int) (maxTokens : Option Int) : Int :=
  let eff := effectiveMax maxTokens
  if requested ≥ eff then max 1024 (eff - 1024) else requested

/-- Thinking budget actually sent by `generate_completion`: when the requested
budget is at least `effective_max`, clamp to `effective_max - 1`. -/
def genThinkingBudget (requested : Int) (maxTokens : Option Int) : Int :=
  let eff := effectiveMax maxTokens
  if requested ≥ eff then eff - 1 else requested

/-- The in-flight tool call held by the accumulator (`current_tool` in the
route handler, `current_tool_call` in the helper): id and name from the
`tool_use` block start. -/
structure OpenTool where
  id : String
  name : String
deriving DecidableEq

/-- A finalized tool call: its argument buffer parsed as JSON (`α`). -/
structure ToolCall (α : Type) where
  id : String
  name : String
  input : α
deriving DecidableEq

/-- A chunk relayed to the SSE client by the route handler. -/
inductive Emit where
  | heartbeat
  | toolStartChunk (id name : String)
  | contentChunk (s : String)
  | thinkingChunk (s : String)
  | toolArgsChunk (id frag : String)
  | toolResultChunk (toolCallId content : String)
  | finishChunk
  | doneMarker
deriving DecidableEq

/-- Transient per-request state of the route handler's first streaming pass
(`assistant_content`, `assistant_thinking`, `tool_calls`, `current_tool`,
`current_json`, `chunk_count`). -/
structure StreamState (α : Type) where
  assistantContent : String
  assistantThinking : String
  toolCalls : List (ToolCall α)
  currentTool : Option OpenTool
  currentJson : String
  chunkCount : Nat
deriving DecidableEq

/-- Initial stream state of `event_stream`. -/
def initState (α : Type) : StreamState α :=
  { assistantContent := "", assistantThinking := "", toolCalls := [],
    currentTool := none, currentJson := "", chunkCount := 0 }

/-- One iteration of the first-pass chunk loop in the route handler's
`event_stream`.  Mirrors the dispatch on `chunk.type`:

* `content_block_start` of a `tool_use` block installs `current_tool`
  (leaving `current_json` untouched) and relays a tool-start chunk;
* `content_block_delta` relays text/thinking/argument fragments and appends
  them to the corresponding buffer (argument fragments only while a tool is
  open);
* `content_block_stop` with an open tool parses the nonempty buffer, appends
  a finalized tool call on success, drops it on failure, and resets
  `current_tool` and `current_json` either way;
* `message_delta` only logs; a chunk with no `type` attribute still relays
  and accumulates a probed `delta.text`. -/
def stepChunk (parse : String → Option α) (s : StreamState α) :
    Chunk → StreamState α × List Emit
  | .contentBlockStart (.toolUse id name) =>
      ({ s with currentTool := some ⟨id, name⟩, chunkCount := s.chunkCount + 1 },
       [.toolStartChunk id name])
  | .contentBlockStart .text => ({ s with chunkCount := s.chunkCount + 1 }, [])
  | .contentBlockStart .otherBlock => ({ s with chunkCount := s.chunkCount + 1 }, [])
  | .contentBlockDelta (.text t) =>
      ({ s with assistantContent := s.assistantContent ++ t,
                chunkCount := s.chunkCount + 1 },
       [.contentChunk t])
  | .contentBlockDelta (.thinking t) =>
      ({ s with assistantThinking := s.assistantThinking ++ t,
                chunkCount := s.chunkCount + 1 },
       [.thinkingChunk t])
  | .contentBlockDelta (.jsonFrag j) =>
      match s.currentTool with
      | some tool =>
          ({ s with currentJson := s.currentJson ++ j,
                    chunkCount := s.chunkCount + 1 },
           [.toolArgsChunk tool.id j])
      | none => ({ s with chunkCount := s.chunkCount + 1 }, [])
  | .contentBlockDelta .otherDelta => ({ s with chunkCount := s.chunkCount + 1 }, [])
  | .contentBlockStop =>
      match s.currentTool with
      | some tool =>
          let calls :=
            if s.currentJson ≠ "" then
              match parse s.currentJson with
              | some v => s.toolCalls ++ [⟨tool.id, tool.name, v⟩]
              | none => s.toolCalls
            else s.toolCalls
          ({ s with toolCalls := calls, currentTool := none, currentJson := "",
                    chunkCount := s.chunkCount + 1 }, [])
      | none => ({ s with chunkCount := s.chunkCount + 1 }, [])
  | .messageDelta _ => ({ s with chunkCount := s.chunkCount + 1 }, [])
  | .untyped (some t) =>
      ({ s with assistantContent := s.assistantContent ++ t,
                chunkCount := s.chunkCount + 1 },
       [.contentChunk t])
  | .untyped none => ({ s with chunkCount := s.chunkCount + 1 }, [])

/-- Fold of `stepChunk` over a chunk sequence, collecting relayed chunks. -/
def processChunks (parse : String → Option α) (s : StreamState α) :
    List Chunk → StreamState α × List Emit
  | [] => (s, [])
  | c :: rest =>
      let (s1, es) := stepChunk parse s c
      let (s2, es2) := processChunks parse s1 rest
      (s2, es ++ es2)

/-- Transit transform applied to every tool name before it is handed to the
model: `original_name.replace(".", "__")`.  Since the pattern is the single
character `.`, the replacement is the character-wise substitution of `.`
by `__`. -/
def transitName (n : String) : String :=
  String.mk (n.data.foldr (fun c acc => (if c = '.' then ['_', '_'] else [c]) ++ acc) [])

/-- The per-request `tool_name_mapping` dict: for each tool in the loaded
list, `tool_name_mapping[modified_name] = original_name`, later entries
overwriting earlier ones on the same key. -/
def buildToolNameMapping (names : List String) : String → Option String :=
  names.foldl (fun m n => fun x => if x = transitName n then some n else m x)
    (fun _ => none)

/-- `tool_name_mapping.get(name, name)`: translate a transit name back to the
original tool name, falling back to the name itself. -/
def lookupOriginalName (m : String → Option String) (n : String) : String :=
  (m n).getD n

/-- The tool names registered by the repository's MCP tool service
(`mcp/app/tools/math.py`). -/
def mcpMathToolNames : List String :=
  ["math.add", "math.subtract", "math.multiply", "math.divide"]

/-- One item of an MCP tool result's `content` list; `text` models the
optional `"text"` key. -/
structure MCPContentItem where
  text : Option String
deriving DecidableEq

/-- A successful MCP `tools/call` result as consumed by the route handler:
its `content` list (`tool_result.get("content", [])`) and its string form
(`str(tool_result)`). -/
structure MCPToolResult where
  content : List MCPContentItem
  asString : String
deriving DecidableEq

/-- Extraction of the result text in the route's tool loop:
`content[0].get("text", str(tool_result))` when the content list is nonempty,
otherwise `str(tool_result)`. -/
def extractResultText (r : MCPToolResult) : String :=
  match r.content with
  | [] => r.asString
  | item :: _ => item.text.getD r.asString

/-- A tool-result record as built by either tool loop.  `isError = none`
models the absence of an `is_error` key in the Python dict. -/
structure ToolResultRec where
  toolCallId : String
  content : String
  isError : Option Bool
deriving DecidableEq

/-- Body of the route handler's tool-execution loop for one finalized tool
call: translate the transit name back, invoke the tool (`invoke` returns
`Except`, modelling a raised exception as `.error msg` with
`msg = str(e)`), and build one result record either way.  A failure is
converted to a record whose content is the error string
`Error executing {name}: {msg}`; neither branch writes an `is_error` key. -/
def invokeOneTool (mapping : String → Option String)
    (invoke : String → α → Except String MCPToolResult) (tc : ToolCall α) :
    ToolResultRec × List Emit :=
  let originalToolName := lookupOriginalName mapping tc.name
  match invoke originalToolName tc.input with
  | .ok r =>
      let resultText := extractResultText r
      (⟨tc.id, resultText, none⟩, [.toolResultChunk tc.id resultText])
  | .error e =>
      let errorMsg := "Error executing " ++ tc.name ++ ": " ++ e
      (⟨tc.id, errorMsg, none⟩, [.toolResultChunk tc.id errorMsg])

/-- The route handler's tool-execution loop: iterate over the finalized tool
calls in order, appending one result record (and relaying one tool-result
chunk) per call. -/
def executeToolCalls (mapping : String → Option String)
    (invoke : String → α → Except String MCPToolResult) :
    List (ToolCall α) → List ToolResultRec × List Emit
  | [] => ([], [])
  | tc :: rest =>
      let (r, es) := invokeOneTool mapping invoke tc
      let (results, restEmits) := executeToolCalls mapping invoke rest
      (r :: results, es ++ restEmits)

/-- Body of the tool loop in `LLMHelper.stream_with_tool_execution`: the call
name is passed as the JSON-RPC method and a successful result is serialized
with `json.dumps` unless it is already a string; a failure becomes a record
with content `Error: {msg}` and `is_error = True`. -/
def invokeOneHelperTool (dumps : α → String)
    (invoke : String → α → Except String (String ⊕ α)) (tc : ToolCall α) :
    ToolResultRec :=
  match invoke tc.name tc.input with
  | .ok (.inl s) => ⟨tc.id, s, none⟩
  | .ok (.inr v) => ⟨tc.id, dumps v, none⟩
  | .error e => ⟨tc.id, "Error: " ++ e, some true⟩

/-- The helper's tool-execution loop (`tool_results` accumulation in
`stream_with_tool_execution`). -/
def helperToolResults (dumps : α → String)
    (invoke : String → α → Except String (String ⊕ α)) :
    List (ToolCall α) → List ToolResultRec
  | [] => []
  | tc :: rest =>
      invokeOneHelperTool dumps invoke tc :: helperToolResults dumps invoke rest

/-- Accumulator state of the first pass of
`LLMHelper.stream_with_tool_execution` (`response_content`, `tool_calls`,
`current_tool_call`, `current_tool_input`). -/
structure ToolExecState (α : Type) where
  responseContent : List String
  toolCalls : List (ToolCall α)
  currentToolCall : Option OpenTool
  currentToolInput : String
deriving DecidableEq

/-- Initial accumulator state of `stream_with_tool_execution`. -/
def initToolExecState (α : Type) : ToolExecState α :=
  { responseContent := [], toolCalls := [], currentToolCall := none,
    currentToolInput := "" }

/-- One iteration of the chunk parser in `stream_with_tool_execution`.
Unlike the route handler, a `tool_use` block start here resets
`current_tool_input` to the empty string.  Only chunks with a `type`
attribute among the three `content_block_*` kinds are inspected. -/
def stepToolExec (parse : String → Option α) (s : ToolExecState α) :
    Chunk → ToolExecState α
  | .contentBlockStart (.toolUse id name) =>
      { s with currentToolCall := some ⟨id, name⟩, currentToolInput := "" }
  | .contentBlockStart .text => s
  | .contentBlockStart .otherBlock => s
  | .contentBlockDelta (.text t) =>
      { s with responseContent := s.responseContent ++ [t] }
  | .contentBlockDelta (.jsonFrag j) =>
      match s.currentToolCall with
      | some _ => { s with currentToolInput := s.currentToolInput ++ j }
      | none => s
  | .contentBlockDelta (.thinking _) => s
  | .contentBlockDelta .otherDelta => s
  | .contentBlockStop =>
      match s.currentToolCall with
      | some tool =>
          let calls :=
            if s.currentToolInput ≠ "" then
              match parse s.currentToolInput with
              | some v => s.toolCalls ++ [⟨tool.id, tool.name, v⟩]
              | none => s.toolCalls
            else s.toolCalls
          { s with toolCalls := calls, currentToolCall := none,
                   currentToolInput := "" }
      | none => s
  | .messageDelta _ => s
  | .untyped _ => s

/-- The assistant message persisted by `_save_assistant_message`: role and
content always present, the remaining fields only when truthy. -/
structure SavedMessage (α : Type) where
  role : String
  content : String
  thinking : Option String
  reasoningContent : Option String
  toolCalls : Option (List (ToolCall α))
  toolResults : Option (List ToolResultRec)
deriving DecidableEq

/-- `_save_assistant_message`: skip the write (return `none`) when content,
thinking, reasoning and tool_calls are all empty; otherwise build the
assistant message, adding each optional field only if truthy. -/
def saveAssistantMessage (content thinking reasoning : String)
    (toolCalls : List (ToolCall α)) (toolResults : List ToolResultRec) :
    Option (SavedMessage α) :=
  if content == "" && thinking == "" && reasoning == "" && toolCalls.isEmpty then
    none
  else
    some
      { role := "assistant", content := content,
        thinking := if thinking ≠ "" then some thinking else none,
        reasoningContent := if reasoning ≠ "" then some reasoning else none,
        toolCalls := if toolCalls.isEmpty then none else some toolCalls,
        toolResults := if toolResults.isEmpty then none else some toolResults }

/-- The follow-up streaming pass of the route handler (after tool results are
appended): only `content_block_delta` text chunks are relayed and appended to
`final_response_content`; every other chunk is ignored. -/
def processPass2Text : List Chunk → String × List Emit
  | [] => ("", [])
  | .contentBlockDelta (.text t) :: rest =>
      let (s, es) := processPass2Text rest
      (t ++ s, .contentChunk t :: es)
  | _ :: rest => processPass2Text rest

/-- The route handler's `event_stream` pipeline: heartbeat, first streaming
pass, tool execution and the follow-up pass when at least one tool call was
finalized, terminal chunk and DONE marker, then the persistence decision of
`_save_assistant_message`.  `pass2` is the chunk sequence of the follow-up
completion (unused when no tool call was finalized);
`assistant_reasoning` is never written by the handler and stays empty. -/
def eventStream (parse : String → Option α)
    (mapping : String → Option String)
    (invoke : String → α → Except String MCPToolResult)
    (pass1 pass2 : List Chunk) : List Emit × Option (SavedMessage α) :=
  let (s, es1) := processChunks parse (initState α) pass1
  if !s.toolCalls.isEmpty then
    let (results, es2) := executeToolCalls mapping invoke s.toolCalls
    if !results.isEmpty then
      let (finalText, es3) := processPass2Text pass2
      let content := s.assistantContent ++ finalText
      (.heartbeat :: es1 ++ es2 ++ es3 ++ [.finishChunk, .doneMarker],
       saveAssistantMessage content s.assistantThinking "" s.toolCalls results)
    else
      (.heartbeat :: es1 ++ es2 ++ [.finishChunk, .doneMarker],
       saveAssistantMessage s.assistantContent s.assistantThinking "" s.toolCalls results)
  else
    (.heartbeat :: es1 ++ [.finishChunk, .doneMarker],
     saveAssistantMessage s.assistantContent s.assistantThinking "" s.toolCalls [])

/-- A stored message (`MessageModel` of `helpers/schemas.py`), with JSON
dict payloads abstracted by the type parameter `J`. -/
structure MessageModel (J : Type) where
  role : String
  content : Option String
  toolCalls : Option (List J)
  toolCallId : Option String
  toolResults : Option (List J)
  thinking : Option String
  reasoningContent : Option String
  thinkingBlocks : Option (List J)
deriving DecidableEq

/-- A message as forwarded to the model provider by `on_post`. -/
structure UpstreamMessage where
  role : String
  content : String
deriving DecidableEq

/-- Message preparation in `on_post`: for each stored message keep only its
role and content, replacing a missing content with the empty string. -/
def prepareMessages (ms : List (MessageModel J)) : List UpstreamMessage :=
  ms.map fun m => { role := m.role, content := m.content.getD "" }

/-- An invocation outcome that is a failure classified as retryable. -/
def retryableFailure : Except UpstreamError σ → Bool
  | .error e => isRetryable e
  | .ok _ => false

/-- The text delta carried by a chunk, if any: a `content_block_delta` with a
`text` attribute, or an untyped chunk whose probed `delta.text` exists. -/
def textDeltaOf : Chunk → Option String
  | .contentBlockDelta (.text t) => some t
  | .untyped (some t) => some t
  | _ => none

/-- The payloads of the content chunks among the relayed chunks, in order. -/
def contentEmitsOf (es : List Emit) : List String :=
  es.filterMap fun e =>
    match e with
    | .contentChunk s => some s
    | _ => none

/-- Whether a chunk is a `tool_use` block start. -/
def isToolUseStart : Chunk → Bool
  | .contentBlockStart (.toolUse _ _) => true
  | _ => false

/-- Whether a chunk sequence contains a `tool_use` block start. -/
def hasToolUseStart (l : List Chunk) : Bool :=
  l.any isToolUseStart

/-- Concatenation of a list of strings in order. -/
def concatStrings : List String → String
  | [] => ""
  | s :: rest => s ++ concatStrings rest

/-- C8: the tool-name transform round-trips.  Every tool name in the list
loaded from the repository's tool service, transformed for transit by
replacing the `.` separator with `__` and then translated back through the
per-request name mapping, yields the original name. -/
theorem c8_tool_name_roundtrip (n : String) (h : n ∈ mcpMathToolNames) :
    lookupOriginalName (buildToolNameMapping mcpMathToolNames) (transitName n) = n := by
  fin_cases h <;> rfl

/-- Witness for C8 at the tool name `math.add`. -/
theorem c8_tool_name_roundtrip_witness :
    "math.add" ∈ mcpMathToolNames ∧
      lookupOriginalName (buildToolNameMapping mcpMathToolNames)
        (transitName "math.add") = "math.add" :=
  ⟨by decide, c8_tool_name_roundtrip "math.add" (by decide)⟩

/-- C9 counterexample: the non-streaming path `generate_completion` clamps
the thinking budget to `max_tokens - 1`, not to `max(1024, max_tokens-1024)`;
and on the streaming path a tiny `max_tokens` yields a budget that is not
strictly below `max_tokens`. -/
theorem c9_budget_clamp_counterexample :
    genThinkingBudget 5000 (some 4096) = 4095 ∧
      ¬ genThinkingBudget 5000 (some 4096) = max 1024 (4096 - 1024) ∧
      streamThinkingBudget 1000 (some 1000) = 1024 ∧
      ¬ streamThinkingBudget 1000 (some 1000) < 1000 := by
  refine ⟨by decide, by decide, by decide, by decide⟩

/-- C9 (amended): with thinking enabled and a nonzero `max_tokens`, the
streaming path sends `max(1024, max_tokens - 1024)` when the requested budget
is at least `max_tokens` and the requested budget unchanged otherwise, and the
sent budget is strictly below `max_tokens` whenever `max_tokens > 1024`; the
non-streaming `generate_completion` path instead clamps an oversized budget to
`max_tokens - 1`. -/
theorem c9_thinking_budget_clamp (r M : Int) (hM : M ≠ 0) :
    streamThinkingBudget r (some M) = (if r ≥ M then max 1024 (M - 1024) else r) ∧
      (1024 < M → streamThinkingBudget r (some M) < M) ∧
      (r ≥ M → genThinkingBudget r (some M) = M - 1) := by
  refine ⟨?_, ?_, ?_⟩
  · simp only [streamThinkingBudget, effectiveMax, if_neg hM]
  · intro hM2
    simp only [streamThinkingBudget, effectiveMax, if_neg hM]
    split
    · exact max_lt (by omega) (by omega)
    · omega
  · intro hr
    simp only [genThinkingBudget, effectiveMax, if_neg hM, if_pos hr]

/-- Witness for C9 at requested budget 5000 and `max_tokens = 4096`. -/
theorem c9_thinking_budget_clamp_witness :
    (4096 : Int) ≠ 0 ∧
      (streamThinkingBudget 5000 (some 4096) =
          (if (5000 : Int) ≥ 4096 then max 1024 (4096 - 1024) else 5000) ∧
        ((1024 : Int) < 4096 → streamThinkingBudget 5000 (some 4096) < 4096) ∧
        ((5000 : Int) ≥ 4096 → genThinkingBudget 5000 (some 4096) = 4096 - 1)) :=
  ⟨by decide, c9_thinking_budget_clamp 5000 4096 (by decide)⟩

/-- C10: the upstream message list depends only on each stored message's role
and content (missing content becoming the empty string); any two stored
message sequences agreeing on roles and contents produce the same prepared
list, whatever their other fields hold. -/
theorem c10_upstream_messages_ignore_extra_fields (J : Type)
    (ms1 ms2 : List (MessageModel J))
    (h : ms1.map (fun m => (m.role, m.content)) = ms2.map (fun m => (m.role, m.content))) :
    prepareMessages ms1 = prepareMessages ms2 := by
  have e : ∀ ms : List (MessageModel J),
      prepareMessages ms =
        (ms.map (fun m => (m.role, m.content))).map
          (fun p => { role := p.1, content := p.2.getD "" }) := by
    intro ms
    simp [prepareMessages, List.map_map, Function.comp]
  rw [e, e, h]

/-- Witness for C10: two single-message conversations whose stored messages
agree on role and content but differ in tool_calls, tool_call_id,
tool_results, thinking, reasoning_content and thinking_blocks. -/
theorem c10_upstream_messages_ignore_extra_fields_witness :
    ([⟨"user", some "hi", some [1], none, none, none, none, none⟩] :
        List (MessageModel Nat)) ≠
        [⟨"user", some "hi", none, some "c1", some [2], some "t", some "r", some [3]⟩] ∧
      prepareMessages
          ([⟨"user", some "hi", some [1], none, none, none, none, none⟩] :
            List (MessageModel Nat)) =
        prepareMessages
          ([⟨"user", some "hi", none, some "c1", some [2], some "t", some "r", some [3]⟩] :
            List (MessageModel Nat)) :=
  ⟨by decide,
    c10_upstream_messages_ignore_extra_fields Nat _ _ (by decide)⟩

/-- Shifting the starting delay of the schedule by one step. -/
theorem delayFrom_shift (cfg : RetryConfig) (d : Rat) (i : Nat) :
    delayFrom cfg d (i + 1) =
      delayFrom cfg (min (d * cfg.multiplier) cfg.maxDelay) i := by
  induction i with
  | zero => rfl
  | succ i ih =>
      show min (delayFrom cfg d (i + 1) * cfg.multiplier) cfg.maxDelay = _
      rw [ih]
      rfl

/-- Behaviour of the retry loop body on `k` retryable failures followed by a
success, from an arbitrary attempt index and current delay. -/
theorem retryAux_success {σ : Type} (cfg : RetryConfig)
    (script : Nat → Except UpstreamError σ) (v : σ) :
    ∀ (k attempt : Nat) (d : Rat) (fuel : Nat), k < fuel →
      (∀ i < k, retryableFailure (script (attempt + i)) = true) →
      script (attempt + k) = .ok v →
      attempt + k ≤ cfg.maxRetries →
      retryAux cfg script fuel attempt d =
        { result := .ok v, invocations := k + 1,
          sleeps := (List.range k).map (delayFrom cfg d) } := by
  intro k
  induction k with
  | zero =>
      intro attempt d fuel hfuel _ hok _
      obtain ⟨f, rfl⟩ := Nat.exists_eq_succ_of_ne_zero (Nat.pos_iff_ne_zero.mp hfuel)
      simp only [Nat.add_zero] at hok
      simp [retryAux, hok]
  | succ k ih =>
      intro attempt d fuel hfuel hfail hok hle
      obtain ⟨f, rfl⟩ := Nat.exists_eq_succ_of_ne_zero
        (Nat.pos_iff_ne_zero.mp (Nat.lt_of_le_of_lt (Nat.zero_le _) hfuel))
      have h0 := hfail 0 (Nat.succ_pos k)
      rw [Nat.add_zero] at h0
      cases hs : script attempt with
      | ok w => rw [hs] at h0; simp [retryableFailure] at h0
      | error e =>
          rw [hs] at h0
          have hretry : isRetryable e = true := h0
          have hlt : attempt < cfg.maxRetries := by omega
          have hrest := ih (attempt + 1) (min (d * cfg.multiplier) cfg.maxDelay) f
            (by omega)
            (fun i hi => by
              have := hfail (i + 1) (by omega)
              simpa [Nat.add_assoc, Nat.add_comm 1 i] using this)
            (by
              have : attempt + 1 + k = attempt + (k + 1) := by omega
              rw [this]; exact hok)
            (by omega)
          have hcond : (isRetryable e && decide (attempt < cfg.maxRetries)) = true := by
            simp [hretry, hlt]
          have hsl : (List.range (k + 1)).map (delayFrom cfg d) =
              d :: (List.range k).map
                (delayFrom cfg (min (d * cfg.multiplier) cfg.maxDelay)) := by
            rw [List.range_succ_eq_map, List.map_cons, List.map_map]
            exact congrArg (List.cons _)
              (List.map_congr_left fun i _ => delayFrom_shift cfg d i)
          simp only [retryAux, hs, hcond, if_true]
          rw [hrest, hsl]

/-- The schedule stays positive under positive configuration values. -/
theorem delayFrom_pos (cfg : RetryConfig) (d : Rat) (hm : 0 < cfg.multiplier)
    (hmax : 0 < cfg.maxDelay) (hd : 0 < d) :
    ∀ i, 0 < delayFrom cfg d i := by
  intro i
  induction i with
  | zero => exact hd
  | succ i ih => exact lt_min (mul_pos ih hm) hmax

/-- C3: when the operation fails with an overloaded or rate-limited error on
each of its first `k` attempts (`k < max_retries`) and then succeeds, the
retry executor returns the success, the operation runs exactly `k + 1` times,
and the sleeps follow the schedule starting at `initial_delay`, each next
delay being the previous times `multiplier` capped at `max_delay` — strictly
increasing until it hits the cap (for a multiplier above one and positive
delays). -/
theorem c3_retry_backoff_success {σ : Type} (cfg : RetryConfig)
    (script : Nat → Except UpstreamError σ) (k : Nat) (v : σ)
    (hfail : ∀ i < k, retryableFailure (script i) = true)
    (hok : script k = .ok v) (hk : k < cfg.maxRetries) :
    retryWithBackoff cfg script =
        { result := .ok v, invocations := k + 1,
          sleeps := (List.range k).map (delaySched cfg) } ∧
      (1 < cfg.multiplier → 0 < cfg.initialDelay → 0 < cfg.maxDelay →
        ∀ i, delaySched cfg i < delaySched cfg (i + 1) ∨
          delaySched cfg (i + 1) = cfg.maxDelay) := by
  constructor
  · exact retryAux_success cfg script v k 0 cfg.initialDelay (cfg.maxRetries + 1)
      (by omega) (fun i hi => by simpa using hfail i hi) (by simpa using hok)
      (by omega)
  · intro hm hd hmax i
    have hpos : 0 < delaySched cfg i :=
      delayFrom_pos cfg cfg.initialDelay (lt_trans one_pos hm) hmax hd i
    rcases le_or_lt (delaySched cfg i * cfg.multiplier) cfg.maxDelay with hle | hlt
    · left
      have : delaySched cfg (i + 1) = delaySched cfg i * cfg.multiplier := by
        show min (delaySched cfg i * cfg.multiplier) cfg.maxDelay = _
        exact min_eq_left hle
      rw [this]
      exact lt_mul_right hpos hm
    · right
      show min (delaySched cfg i * cfg.multiplier) cfg.maxDelay = cfg.maxDelay
      exact min_eq_right (le_of_lt hlt)

/-- Witness for C3: two overloaded failures then success under the default
configuration — three invocations, sleeps 1.0s then 2.0s. -/
theorem c3_retry_backoff_success_witness :
    retryWithBackoff defaultRetryConfig
        (fun n => if n < 2 then .error (.api (some "overloaded_error"))
          else .ok (42 : Nat)) =
      { result := .ok 42, invocations := 3, sleeps := [1, 2] } := by
  have h := c3_retry_backoff_success defaultRetryConfig
    (fun n => if n < 2 then .error (.api (some "overloaded_error")) else .ok (42 : Nat))
    2 42 (by decide) (by rfl) (by decide)
  rw [h.1]
  have hs : (List.range 2).map (delaySched defaultRetryConfig) = [1, 2] := by
    have h1 : delaySched defaultRetryConfig 1 = 2 := by
      simp only [delaySched, delayFrom, defaultRetryConfig]
      norm_num [min_def]
    simp [List.range_succ, h1]
    simp [delaySched, delayFrom, defaultRetryConfig]
  rw [hs]

/-- C2 evidence: the streaming retry wrapper retries a retryable failure even
after the stream has yielded events.  With an upstream whose first attempt
yields one text chunk and then raises an overloaded error, and whose second
attempt yields the same chunk and completes, the code sleeps once, re-opens
the stream, and relays the chunk twice. -/
theorem c2_stream_retry_after_yield :
    streamWithRetry defaultRetryConfig
        (fun n =>
          if n = 0 then
            { chunks := [.contentBlockDelta (.text "Hello")],
              outcome := some (.api (some "overloaded_error")) }
          else
            { chunks := [.contentBlockDelta (.text "Hello")], outcome := none }) =
      { yielded := [.contentBlockDelta (.text "Hello"),
          .contentBlockDelta (.text "Hello")],
        result := .ok (), attempts := 2, sleeps := [1] } := by
  rfl

/-- C4: an error on the first attempt that is not classified as overloaded or
rate-limited propagates immediately from both retry loops: the operation is
invoked exactly once, no backoff sleep happens, and for the streaming wrapper
only the first attempt's chunks are relayed. -/
theorem c4_nonretryable_first_attempt {σ : Type} (cfg : RetryConfig)
    (script : Nat → Except UpstreamError σ) (sscript : Nat → StreamAttempt)
    (e : UpstreamError) (h1 : script 0 = .error e)
    (h2 : (sscript 0).outcome = some e) (h3 : isRetryable e = false) :
    retryWithBackoff cfg script =
        { result := .error e, invocations := 1, sleeps := [] } ∧
      streamWithRetry cfg sscript =
        { yielded := (sscript 0).chunks, result := .error e, attempts := 1,
          sleeps := [] } := by
  constructor
  · simp [retryWithBackoff, retryAux, h1, h3]
  · simp [streamWithRetry, streamRetryAux, h2, h3]

/-- The route's tool loop produces exactly the per-call records, in call
order. -/
theorem executeToolCalls_results_eq {α : Type} (mapping : String → Option String)
    (invoke : String → α → Except String MCPToolResult) (calls : List (ToolCall α)) :
    (executeToolCalls mapping invoke calls).1 =
      calls.map (fun tc => (invokeOneTool mapping invoke tc).1) := by
  induction calls with
  | nil => rfl
  | cons tc rest ih => simp [executeToolCalls, ih]

/-- The helper's tool loop produces exactly the per-call records, in call
order. -/
theorem helperToolResults_eq {α : Type} (dumps : α → String)
    (invoke : String → α → Except String (String ⊕ α)) (calls : List (ToolCall α)) :
    helperToolResults dumps invoke calls =
      calls.map (invokeOneHelperTool dumps invoke) := by
  induction calls with
  | nil => rfl
  | cons tc rest ih => simp [helperToolResults, ih]

/-- Each record of the route's tool loop carries the id of its call. -/
theorem invokeOneTool_id {α : Type} (mapping : String → Option String)
    (invoke : String → α → Except String MCPToolResult) (tc : ToolCall α) :
    (invokeOneTool mapping invoke tc).1.toolCallId = tc.id := by
  cases h : invoke (lookupOriginalName mapping tc.name) tc.input <;>
    simp [invokeOneTool, h]

/-- Each record of the helper's tool loop carries the id of its call. -/
theorem invokeOneHelperTool_id {α : Type} (dumps : α → String)
    (invoke : String → α → Except String (String ⊕ α)) (tc : ToolCall α) :
    (invokeOneHelperTool dumps invoke tc).toolCallId = tc.id := by
  cases h : invoke tc.name tc.input with
  | ok w => cases w <;> simp [invokeOneHelperTool, h]
  | error e => simp [invokeOneHelperTool, h]

/-- In the zip of a list with its map, the second component of every pair is
the image of the first. -/
theorem mem_zip_map {β γ : Type} (l : List β) (f : β → γ) :
    ∀ p ∈ l.zip (l.map f), p.2 = f p.1 := by
  induction l with
  | nil => intro p hp; cases hp
  | cons b rest ih =>
      intro p hp
      rcases List.mem_cons.mp hp with h | h
      · subst h; rfl
      · exact ih p h

/-- `contentEmitsOf` distributes over list append. -/
theorem contentEmitsOf_append (a b : List Emit) :
    contentEmitsOf (a ++ b) = contentEmitsOf a ++ contentEmitsOf b :=
  List.filterMap_append a b _

/-- Effect of one non-`tool_use`-start chunk on the route accumulator when no
tool call is open: the assistant content grows by the chunk's text delta (if
any), the finalized tool calls are untouched, no tool call opens, and the
relayed content chunks are exactly the chunk's text delta. -/
theorem stepChunk_accum {α : Type} (parse : String → Option α)
    (s : StreamState α) (c : Chunk) (h1 : s.currentTool = none)
    (hc : isToolUseStart c = false) :
    (stepChunk parse s c).1.assistantContent =
        s.assistantContent ++ ((textDeltaOf c).getD "") ∧
      (stepChunk parse s c).1.toolCalls = s.toolCalls ∧
      (stepChunk parse s c).1.currentTool = none ∧
      contentEmitsOf (stepChunk parse s c).2 = (textDeltaOf c).toList := by
  cases c with
  | contentBlockStart b =>
      cases b with
      | text => simp [stepChunk, textDeltaOf, contentEmitsOf, h1]
      | toolUse id name => simp [isToolUseStart] at hc
      | otherBlock => simp [stepChunk, textDeltaOf, contentEmitsOf, h1]
  | contentBlockDelta d =>
      cases d <;> simp [stepChunk, textDeltaOf, contentEmitsOf, h1]
  | contentBlockStop => simp [stepChunk, textDeltaOf, contentEmitsOf, h1]
  | messageDelta r => simp [stepChunk, textDeltaOf, contentEmitsOf, h1]
  | untyped t =>
      cases t <;> simp [stepChunk, textDeltaOf, contentEmitsOf, h1]

/-- First-pass accumulation over a chunk sequence without `tool_use` blocks:
the assistant content grows by the concatenation of all text deltas in
arrival order, no tool call is finalized or left open, and the relayed
content chunks are exactly the text deltas in order. -/
theorem processChunks_accum {α : Type} (parse : String → Option α) :
    ∀ (l : List Chunk) (s : StreamState α), s.currentTool = none →
      hasToolUseStart l = false →
      (processChunks parse s l).1.assistantContent =
          s.assistantContent ++ concatStrings (l.filterMap textDeltaOf) ∧
        (processChunks parse s l).1.toolCalls = s.toolCalls ∧
        (processChunks parse s l).1.currentTool = none ∧
        contentEmitsOf (processChunks parse s l).2 = l.filterMap textDeltaOf := by
  intro l
  induction l with
  | nil =>
      intro s h1 h2
      simp [processChunks, concatStrings, contentEmitsOf, h1]
  | cons c rest ih =>
      intro s h1 h2
      rw [hasToolUseStart, List.any_cons, Bool.or_eq_false_iff] at h2
      obtain ⟨hc, hrest⟩ := h2
      obtain ⟨sa, sb, sc, sd⟩ := stepChunk_accum parse s c h1 hc
      obtain ⟨ih1, ih2, ih3, ih4⟩ := ih (stepChunk parse s c).1 sc hrest
      refine ⟨?_, ?_, ?_, ?_⟩
      · show (processChunks parse (stepChunk parse s c).1 rest).1.assistantContent = _
        rw [ih1, sa]
        cases htd : textDeltaOf c <;>
          simp [List.filterMap_cons, htd, concatStrings, String.append_assoc]
      · show (processChunks parse (stepChunk parse s c).1 rest).1.toolCalls = _
        rw [ih2, sb]
      · show (processChunks parse (stepChunk parse s c).1 rest).1.currentTool = none
        exact ih3
      · show contentEmitsOf ((stepChunk parse s c).2 ++
            (processChunks parse (stepChunk parse s c).1 rest).2) = _
        rw [contentEmitsOf_append, sd, ih4]
        cases htd : textDeltaOf c <;>
          simp [List.filterMap_cons, htd, Option.toList]

/-- C5: for a first-pass stream without tool-use blocks, every text delta is
relayed verbatim as a content chunk in arrival order, and the assistant
content persisted at stream end equals the concatenation of all text deltas
in arrival order. -/
theorem c5_text_relay_and_persistence {α : Type} (parse : String → Option α)
    (mapping : String → Option String)
    (invoke : String → α → Except String MCPToolResult)
    (pass1 pass2 : List Chunk) (h : hasToolUseStart pass1 = false) :
    contentEmitsOf (eventStream parse mapping invoke pass1 pass2).1 =
        pass1.filterMap textDeltaOf ∧
      ∀ m, (eventStream parse mapping invoke pass1 pass2).2 = some m →
        m.content = concatStrings (pass1.filterMap textDeltaOf) := by
  obtain ⟨ha, hb, hcur, hd⟩ :=
    processChunks_accum parse pass1 (initState α) rfl h
  rcases hP : processChunks parse (initState α) pass1 with ⟨st, es1⟩
  rw [hP] at ha hb hcur hd
  dsimp only [initState] at ha hb hcur hd
  have hcontent : st.assistantContent = concatStrings (pass1.filterMap textDeltaOf) := by
    rw [ha]; exact String.empty_append _
  have hev : eventStream parse mapping invoke pass1 pass2 =
      (.heartbeat :: es1 ++ [.finishChunk, .doneMarker],
        saveAssistantMessage st.assistantContent st.assistantThinking "" [] []) := by
    unfold eventStream
    rw [hP]
    dsimp only
    rw [hb]
    simp
  rw [hev]
  constructor
  · have e1 : contentEmitsOf [Emit.heartbeat] = [] := rfl
    have e2 : contentEmitsOf [Emit.finishChunk, Emit.doneMarker] = [] := rfl
    show contentEmitsOf
        ([Emit.heartbeat] ++ (es1 ++ [Emit.finishChunk, Emit.doneMarker])) = _
    rw [contentEmitsOf_append, contentEmitsOf_append, e1, e2, hd]
    simp
  · intro m hm
    dsimp only at hm
    rw [saveAssistantMessage] at hm
    split at hm
    · exact absurd hm (by simp)
    · have hinj := Option.some.inj hm
      subst hinj
      exact hcontent

/-- Witness for C5: a two-delta stream is relayed verbatim and the persisted
content is the concatenation of the deltas. -/
theorem c5_text_relay_and_persistence_witness :
    contentEmitsOf
        (eventStream (fun s => if s = "7" then some (7 : Nat) else none)
          (fun _ => none) (fun _ _ => Except.error "unused")
          [.contentBlockDelta (.text "Hel"), .messageDelta (some "end_turn"),
            .contentBlockDelta (.text "lo!")] []).1 = ["Hel", "lo!"] ∧
      ({ role := "assistant", content := "Hello!", thinking := none,
          reasoningContent := none, toolCalls := none, toolResults := none } :
          SavedMessage Nat).content = "Hello!" :=
  ⟨(c5_text_relay_and_persistence (fun s => if s = "7" then some (7 : Nat) else none)
      (fun _ => none) (fun _ _ => Except.error "unused")
      [.contentBlockDelta (.text "Hel"), .messageDelta (some "end_turn"),
        .contentBlockDelta (.text "lo!")] [] (by decide)).1,
    (c5_text_relay_and_persistence (fun s => if s = "7" then some (7 : Nat) else none)
      (fun _ => none) (fun _ _ => Except.error "unused")
      [.contentBlockDelta (.text "Hel"), .messageDelta (some "end_turn"),
        .contentBlockDelta (.text "lo!")] [] (by decide)).2
      { role := "assistant", content := "Hello!", thinking := none,
        reasoningContent := none, toolCalls := none, toolResults := none }
      rfl⟩

/-- C6: when a tool-use block closes with a buffer that does not parse as
JSON, no tool call is finalized, nothing is relayed for the block, the
accumulator resets to idle with an empty buffer, and processing of the
remaining chunks continues exactly as from the reset state. -/
theorem c6_invalid_json_drops_call_and_continues {α : Type}
    (parse : String → Option α) (s : StreamState α) (tool : OpenTool)
    (rest : List Chunk) (hopen : s.currentTool = some tool)
    (hbad : parse s.currentJson = none) :
    stepChunk parse s .contentBlockStop =
        ({ s with currentTool := none, currentJson := "",
                  chunkCount := s.chunkCount + 1 }, []) ∧
      processChunks parse s (.contentBlockStop :: rest) =
        processChunks parse
          { s with currentTool := none, currentJson := "",
                    chunkCount := s.chunkCount + 1 } rest := by
  have h1 : stepChunk parse s .contentBlockStop =
      ({ s with currentTool := none, currentJson := "",
                chunkCount := s.chunkCount + 1 }, []) := by
    simp only [stepChunk, hopen]
    by_cases hj : s.currentJson = ""
    · simp [hj]
    · simp [hj, hbad]
  refine ⟨h1, ?_⟩
  show (let (s1, es) := stepChunk parse s .contentBlockStop
        let (s2, es2) := processChunks parse s1 rest
        ((s2, es ++ es2) : StreamState α × List Emit)) = _
  rw [h1]
  dsimp only
  cases hrest : processChunks parse
      { s with currentTool := none, currentJson := "",
               chunkCount := s.chunkCount + 1 } rest with
  | mk s2 es2 => simp

/-- Witness for C6 at a concrete open tool call whose buffer `oops` is not
valid JSON, followed by one more text delta. -/
theorem c6_invalid_json_drops_call_and_continues_witness :
    stepChunk (fun s => if s = "7" then some (7 : Nat) else none)
        ({ assistantContent := "abc", assistantThinking := "", toolCalls := [],
            currentTool := some ⟨"t1", "math__add"⟩, currentJson := "oops",
            chunkCount := 3 } : StreamState Nat) .contentBlockStop =
        ({ assistantContent := "abc", assistantThinking := "", toolCalls := [],
            currentTool := none, currentJson := "", chunkCount := 4 }, []) ∧
      processChunks (fun s => if s = "7" then some (7 : Nat) else none)
          ({ assistantContent := "abc", assistantThinking := "", toolCalls := [],
              currentTool := some ⟨"t1", "math__add"⟩, currentJson := "oops",
              chunkCount := 3 } : StreamState Nat)
          [.contentBlockStop, .contentBlockDelta (.text "x")] =
        processChunks (fun s => if s = "7" then some (7 : Nat) else none)
          ({ assistantContent := "abc", assistantThinking := "", toolCalls := [],
              currentTool := none, currentJson := "", chunkCount := 4 } :
            StreamState Nat)
          [.contentBlockDelta (.text "x")] :=
  c6_invalid_json_drops_call_and_continues
    (fun s => if s = "7" then some (7 : Nat) else none) _ ⟨"t1", "math__add"⟩
    [.contentBlockDelta (.text "x")] rfl (by decide)

/-- A step of the route accumulator preserves the invariant that the
partial-JSON buffer is empty whenever no tool call is open. -/
theorem stepChunk_json_inv {α : Type} (parse : String → Option α)
    (s : StreamState α) (c : Chunk)
    (h : s.currentTool = none → s.currentJson = "") :
    (stepChunk parse s c).1.currentTool = none →
      (stepChunk parse s c).1.currentJson = "" := by
  cases c with
  | contentBlockStart b =>
      cases b with
      | text => intro hn; exact h hn
      | toolUse id name => intro hn; simp [stepChunk] at hn
      | otherBlock => intro hn; exact h hn
  | contentBlockDelta d =>
      cases d with
      | text t => intro hn; exact h hn
      | thinking t => intro hn; exact h hn
      | jsonFrag j =>
          cases hc : s.currentTool with
          | none => intro _; simp [stepChunk, hc]; exact h hc
          | some tool => intro hn; simp [stepChunk, hc] at hn
      | otherDelta => intro hn; exact h hn
  | contentBlockStop =>
      cases hc : s.currentTool with
      | none => intro hn; simp [stepChunk, hc]; exact h hc
      | some tool => intro _; simp [stepChunk, hc]
  | messageDelta r => intro hn; exact h hn
  | untyped t =>
      cases t with
      | none => intro hn; exact h hn
      | some u => intro hn; exact h hn

/-- The buffer-empty-when-idle invariant holds for every state the route
accumulator reaches from the initial state. -/
theorem processChunks_json_inv {α : Type} (parse : String → Option α) :
    ∀ (l : List Chunk) (s : StreamState α),
      (s.currentTool = none → s.currentJson = "") →
      (processChunks parse s l).1.currentTool = none →
        (processChunks parse s l).1.currentJson = "" := by
  intro l
  induction l with
  | nil => intro s h; exact h
  | cons c rest ih =>
      intro s h
      exact ih (stepChunk parse s c).1 (stepChunk_json_inv parse s c h)

/-- C7 counterexample: in the route handler's accumulator, a `tool_use`
block-start does not clear the partial-JSON buffer, so when a previous
tool-use block is still open its accumulated fragment survives the new
block-start and leaks into the new call's parsed arguments. -/
theorem c7_buffer_leak_counterexample :
    (processChunks (fun s => if s = "12" then some (12 : Nat) else none)
          (initState Nat)
          [.contentBlockStart (.toolUse "idA" "a"),
            .contentBlockDelta (.jsonFrag "1"),
            .contentBlockStart (.toolUse "idB" "b")]).1.currentJson = "1" ∧
      ¬ (processChunks (fun s => if s = "12" then some (12 : Nat) else none)
            (initState Nat)
            [.contentBlockStart (.toolUse "idA" "a"),
              .contentBlockDelta (.jsonFrag "1"),
              .contentBlockStart (.toolUse "idB" "b")]).1.currentJson = "" ∧
      (processChunks (fun s => if s = "12" then some (12 : Nat) else none)
          (initState Nat)
          [.contentBlockStart (.toolUse "idA" "a"),
            .contentBlockDelta (.jsonFrag "1"),
            .contentBlockStart (.toolUse "idB" "b"),
            .contentBlockDelta (.jsonFrag "2"),
            .contentBlockStop]).1.toolCalls = [⟨"idB", "b", 12⟩] :=
  ⟨by decide, by decide, by decide⟩

/-- C7 (amended): the helper accumulator of `stream_with_tool_execution`
resets the argument buffer to the empty string at every `tool_use`
block-start; the route handler's accumulator leaves the buffer untouched at
block-start, so the newly opened call starts with an empty buffer exactly
when no earlier tool-use block was still open (as in every protocol-conforming
stream, where each block is closed before the next starts). -/
theorem c7_block_start_buffer {α : Type} (parse : String → Option α) :
    (∀ (s : ToolExecState α) (id name : String),
        (stepToolExec parse s
            (.contentBlockStart (.toolUse id name))).currentToolInput = "") ∧
      ∀ (l : List Chunk) (id name : String),
        (processChunks parse (initState α) l).1.currentTool = none →
          (stepChunk parse (processChunks parse (initState α) l).1
              (.contentBlockStart (.toolUse id name))).1.currentJson = "" := by
  constructor
  · intro s id name; rfl
  · intro l id name hnone
    have hj := processChunks_json_inv parse l (initState α) (fun _ => rfl) hnone
    simpa [stepChunk] using hj

/-- Witness for C7: the helper accumulator clears a junk buffer at
block-start, and the route accumulator's buffer is empty after a block-start
that follows a properly closed stream prefix. -/
theorem c7_block_start_buffer_witness :
    (stepToolExec (fun s => if s = "7" then some (7 : Nat) else none)
        ({ responseContent := [], toolCalls := [],
            currentToolCall := some ⟨"old", "o"⟩, currentToolInput := "junk" } :
          ToolExecState Nat)
        (.contentBlockStart (.toolUse "idA" "a"))).currentToolInput = "" ∧
      (stepChunk (fun s => if s = "7" then some (7 : Nat) else none)
          (processChunks (fun s => if s = "7" then some (7 : Nat) else none)
            (initState Nat) [.contentBlockDelta (.text "hi")]).1
          (.contentBlockStart (.toolUse "idA" "a"))).1.currentJson = "" :=
  ⟨(c7_block_start_buffer (fun s => if s = "7" then some (7 : Nat) else none)).1
      { responseContent := [], toolCalls := [],
        currentToolCall := some ⟨"old", "o"⟩, currentToolInput := "junk" } "idA" "a",
    (c7_block_start_buffer (fun s => if s = "7" then some (7 : Nat) else none)).2
      [.contentBlockDelta (.text "hi")] "idA" "a" rfl⟩

/-- C1 counterexample: in the route handler's tool loop, a failing invocation
yields a result record that carries no `is_error` key at all — the record is
not flagged `is_error=true` as the claim requires. -/
theorem c1_missing_error_flag_counterexample :
    (executeToolCalls (fun _ => none) (fun _ _ => Except.error "boom")
          [(⟨"call-1", "math__add", 1⟩ : ToolCall Nat)]).1 =
        [{ toolCallId := "call-1", content := "Error executing math__add: boom",
           isError := none }] ∧
      ¬ (executeToolCalls (fun _ => none) (fun _ _ => Except.error "boom")
            [(⟨"call-1", "math__add", 1⟩ : ToolCall Nat)]).1 =
          [{ toolCallId := "call-1", content := "Error executing math__add: boom",
             isError := some true }] :=
  ⟨by decide, by decide⟩

/-- C1 (amended): both tool loops produce exactly one result record per
finalized tool call, matched pairwise by id in original call order, and an
invocation failure is converted into a record whose content is a
human-readable error string instead of propagating; the `is_error=true` flag
on failures is set only by the helper loop of `stream_with_tool_execution`,
while the route handler's loop stores no `is_error` key. -/
theorem c1_one_result_per_call {α : Type} (mapping : String → Option String)
    (invoke : String → α → Except String MCPToolResult) (dumps : α → String)
    (invokeH : String → α → Except String (String ⊕ α))
    (calls : List (ToolCall α)) :
    ((executeToolCalls mapping invoke calls).1.length = calls.length ∧
      (executeToolCalls mapping invoke calls).1.map (fun r => r.toolCallId) =
        calls.map (fun tc => tc.id) ∧
      ∀ p ∈ calls.zip (executeToolCalls mapping invoke calls).1, ∀ e,
        invoke (lookupOriginalName mapping p.1.name) p.1.input = .error e →
          p.2.content = "Error executing " ++ p.1.name ++ ": " ++ e ∧
            p.2.isError = none) ∧
      ((helperToolResults dumps invokeH calls).length = calls.length ∧
        (helperToolResults dumps invokeH calls).map (fun r => r.toolCallId) =
          calls.map (fun tc => tc.id) ∧
        ∀ p ∈ calls.zip (helperToolResults dumps invokeH calls), ∀ e,
          invokeH p.1.name p.1.input = .error e →
            p.2.content = "Error: " ++ e ∧ p.2.isError = some true) := by
  have hroute := executeToolCalls_results_eq mapping invoke calls
  have hhelp := helperToolResults_eq dumps invokeH calls
  refine ⟨⟨?_, ?_, ?_⟩, ?_, ?_, ?_⟩
  · rw [hroute, List.length_map]
  · rw [hroute, List.map_map]
    exact List.map_congr_left fun tc _ => invokeOneTool_id mapping invoke tc
  · intro p hp e he
    rw [hroute] at hp
    have h2 := mem_zip_map calls _ p hp
    rw [h2]
    simp [invokeOneTool, he]
  · rw [hhelp, List.length_map]
  · rw [hhelp, List.map_map]
    exact List.map_congr_left fun tc _ => invokeOneHelperTool_id dumps invokeH tc
  · intro p hp e he
    rw [hhelp] at hp
    have h2 := mem_zip_map calls _ p hp
    rw [h2]
    simp [invokeOneHelperTool, he]

/-- Witness for C1 at a single failing tool call: in the route loop the
record's content is the error string and no flag is stored; in the helper
loop the record is flagged. -/
theorem c1_one_result_per_call_witness :
    ((⟨"call-1", "Error executing math__add: boom", none⟩ : ToolResultRec).content =
        "Error executing math__add: boom" ∧
      (⟨"call-1", "Error executing math__add: boom", none⟩ : ToolResultRec).isError =
        none) ∧
      ((⟨"call-1", "Error: boom", some true⟩ : ToolResultRec).content =
          "Error: boom" ∧
        (⟨"call-1", "Error: boom", some true⟩ : ToolResultRec).isError = some true) :=
  ⟨(c1_one_result_per_call (fun _ => none) (fun _ _ => Except.error "boom")
        (fun _ => "null") (fun _ _ => Except.error "boom")
        [(⟨"call-1", "math__add", 1⟩ : ToolCall Nat)]).1.2.2
      (⟨"call-1", "math__add", 1⟩, ⟨"call-1", "Error executing math__add: boom", none⟩)
      (by decide) "boom" rfl,
    (c1_one_result_per_call (fun _ => none) (fun _ _ => Except.error "boom")
        (fun _ => "null") (fun _ _ => Except.error "boom")
        [(⟨"call-1", "math__add", 1⟩ : ToolCall Nat)]).2.2.2
      (⟨"call-1", "math__add", 1⟩, ⟨"call-1", "Error: boom", some true⟩)
      (by decide) "boom" rfl⟩

/-- Witness for C4 at a concrete non-retryable authentication error. -/
theorem c4_nonretryable_first_attempt_witness :
    retryWithBackoff defaultRetryConfig
        (fun _ => (.error (.api (some "authentication_error")) : Except UpstreamError Nat)) =
        { result := .error (.api (some "authentication_error")), invocations := 1,
          sleeps := [] } ∧
      streamWithRetry defaultRetryConfig
          (fun _ => { chunks := [], outcome := some (.api (some "authentication_error")) }) =
        { yielded := [], result := .error (.api (some "authentication_error")),
          attempts := 1, sleeps := [] } :=
  c4_nonretryable_first_attempt defaultRetryConfig _ _
    (.api (some "authentication_error")) rfl rfl (by decide)

end Chatbot
